import Mathlib

/-!
Shallow embedding of the impact-table builder in
`scripts/combine/pullsAndImpacts.py`.

Dataframe rows become Lean structures with exact rational (`ℚ`) numeric
fields.  External library calls are abstracted as function parameters:

* `ms pat s` stands for `re.match(pat, s)` (anchored regex match, used for
  `--filters`),
* `cs pat s` stands for `Series.str.contains(pat, regex=True)` (regex
  search, used for the POI drop),
* `tr` stands for the `translate_label.get(l, l)` lookup,
* `pullOf / constraintOf / prefitOf` stand for the per-parameter arrays
  returned by `combinetf_input.get_pulls_and_constraints`.

Floating-point arithmetic is idealised as exact rational arithmetic; the
only place where IEEE special values matter is the `newpull` column, which
is modelled by the explicit `NewPull` type below.
-/

namespace PullsAndImpacts

/-- The stored value of the `newpull` column
(`df['newpull'] = df['pull'] / (1-df["constraint"]**2)**0.5` followed by
`replace([np.inf, -np.inf, np.nan], 999)`, lines 289-290).
`NewPull.val p d` denotes the finite float `p / sqrt d` (stored when
`d = 1 - constraint^2 > 0`); `NewPull.sentinel` denotes the stored
sentinel value `999`, which replaces every infinite or NaN quotient. -/
inductive NewPull where
  | sentinel : NewPull
  | val : ℚ → ℚ → NewPull
deriving DecidableEq

/-- Model of computing, as `mkNewpull p c`, `p / (1 - c**2)**0.5` in IEEE
arithmetic and then replacing `±inf` and `NaN` by `999`: when
`1 - c^2 ≤ 0` the divisor is `0.0` or `NaN`, so the quotient is `±inf` or
`NaN` and the stored value is the sentinel; otherwise the quotient is the
finite value `p / sqrt (1 - c^2)`. -/
def mkNewpull (p c : ℚ) : NewPull :=
  if 1 - c ^ 2 > 0 then .val p (1 - c ^ 2) else .sentinel

/-- The pull-related columns, present only when `group=False`
(lines 285-290 of `readFitInfoFromFile`). -/
structure PullCols where
  pull : ℚ
  constraint : ℚ
  pull_prefit : ℚ
  abspull : ℚ
  newpull : NewPull
deriving DecidableEq

/-- One row of the dataframe built by `readFitInfoFromFile`.  The columns
added only in ungrouped mode are gathered in the optional `pulls` field. -/
structure Row where
  label : String
  impact : ℚ
  absimpact : ℚ
  pulls : Option PullCols
  impact_color : String
deriving DecidableEq

/-- Python truthiness of the `grouping` argument (a list or `None`):
truthy iff it is a non-empty list. -/
def groupingTruthy : Option (List String) → Bool
  | none => false
  | some g => !g.isEmpty

/-- Membership test `label not in grouping` (line 273). -/
def inGrouping (grouping : Option (List String)) (l : String) : Bool :=
  match grouping with
  | none => false
  | some gl => gl.contains l

/-- The per-row keep condition of the filter loop (lines 272-278): a row is
skipped when `group and grouping and label not in grouping`, or when
`filters and not any(re.match(f, label) for f in filters)`. -/
def keepPair (ms : String → String → Bool) (group : Bool)
    (grouping : Option (List String)) (filters : List String)
    (l : String) : Bool :=
  (!(group && groupingTruthy grouping && !inGrouping grouping l)) &&
  (!(!filters.isEmpty && !filters.any fun f => ms f l))

/-- Lines 269-280: zip impacts with labels and, when
`(group and grouping) or filters`, keep only the pairs passing
`keepPair`. -/
def filteredPairs (ms : String → String → Bool) (group : Bool)
    (grouping : Option (List String)) (filters : List String)
    (impacts : List ℚ) (labels : List String) : List (ℚ × String) :=
  let pairs := impacts.zip labels
  if (group && groupingTruthy grouping) || !filters.isEmpty then
    pairs.filter fun il => keepPair ms group grouping filters il.2
  else pairs

/-- Lines 282-290: build one dataframe row from a filtered
(impact, label) pair: `impact = raw * scale`, translated label,
`absimpact = |impact|`, and, in ungrouped mode,
`pull = raw_pull - prefit_pull`, `constraint`, `abspull = |pull|` and
`newpull`.  The `impact_color` column is assigned later (lines 293-296),
so it is initialised to the default here. -/
def buildRow (tr : String → String) (group : Bool) (scale : ℚ)
    (pullOf constraintOf prefitOf : String → ℚ) (il : ℚ × String) : Row :=
  let impact := il.1 * scale
  let l := il.2
  { label := tr l
    impact := impact
    absimpact := |impact|
    pulls :=
      if group then none
      else
        let pull := pullOf l - prefitOf l
        some { pull := pull
               constraint := constraintOf l
               pull_prefit := prefitOf l
               abspull := |pull|
               newpull := mkNewpull pull (constraintOf l) }
    impact_color := "#377eb8" }

/-- Model of `poi.replace("_noi","")` (line 292): remove every occurrence of the
substring `_noi`. -/
def stripNoi (p : String) : String := p.replace "_noi" ""

/-- Lines 291-292 (inside `if not group:`): when a truthy POI name is
given, drop every row whose (translated) label regex-contains
`poi.replace("_noi","")`. -/
def dropPoi (cs : String → String → Bool) (poi : Option String)
    (group : Bool) (rows : List Row) : List Row :=
  match poi with
  | none => rows
  | some p =>
    if group || p.isEmpty then rows
    else rows.filter fun r => !cs (stripNoi p) r.label

/-- Lines 293-296: every row gets `impact_color = '#377eb8'`; in ungrouped
mode rows with `impact > 0` get `'#e41a1c'` instead. -/
def setColor (group : Bool) (r : Row) : Row :=
  if !group && r.impact > 0 then { r with impact_color := "#e41a1c" }
  else { r with impact_color := "#377eb8" }

/-- The full table builder `readFitInfoFromFile` (lines 265-298):
filter the raw (impact, label) pairs, build the derived columns, drop the
POI rows (ungrouped mode), and assign the marker colors. -/
def readFitInfoFromFile (ms cs : String → String → Bool)
    (tr : String → String) (impacts : List ℚ) (labels : List String)
    (poi : Option String) (group : Bool) (grouping : Option (List String))
    (filters : List String) (scale : ℚ)
    (pullOf constraintOf prefitOf : String → ℚ) : List Row :=
  (dropPoi cs poi group
      ((filteredPairs ms group grouping filters impacts labels).map
        (buildRow tr group scale pullOf constraintOf prefitOf))).map
    (setColor group)

/-- The non-label columns of one side (current or reference) of the merged
dataframe produced in `producePlots` (line 396). -/
structure SideData where
  impact : ℚ
  absimpact : ℚ
  pulls : Option PullCols
  impact_color : String
deriving DecidableEq

/-- The non-label columns of a `Row`. -/
def Row.data (r : Row) : SideData :=
  { impact := r.impact
    absimpact := r.absimpact
    pulls := r.pulls
    impact_color := r.impact_color }

/-- One row of the merged dataframe after the `fillna` step: a label plus
both sides fully populated. -/
structure MRow where
  label : String
  cur : SideData
  ref : SideData
deriving DecidableEq

/-- The values substituted for a side that is absent from the outer join
(lines 398-401): every numeric column is filled with `0`
(`default_values.get(col, 0)`) and the `impact_color` /
`impact_color_ref` columns with the neutral color `"#377eb8"`.  In
ungrouped mode the filled `newpull` entry is the stored float `0`,
i.e. `NewPull.val 0 1` (denoting `0 / sqrt 1 = 0`). -/
def defaultSide (group : Bool) : SideData :=
  { impact := 0
    absimpact := 0
    pulls :=
      if group then none
      else some { pull := 0, constraint := 0, pull_prefit := 0,
                  abspull := 0, newpull := .val 0 1 }
    impact_color := "#377eb8" }

/-- Outer join `df.merge(df_ref, how="outer", on="label", suffixes=("","_ref"))`
(line 396): every current row is paired with each reference row of the
same label (or with a missing side when there is none), and the
reference rows whose label never occurs in the current table are
appended with a missing current side. -/
def mergeOuter (cur ref : List Row) :
    List (String × Option SideData × Option SideData) :=
  (cur.flatMap fun r =>
    let matched := ref.filter fun s => s.label == r.label
    if matched.isEmpty then [(r.label, some r.data, none)]
    else matched.map fun s => (r.label, some r.data, some s.data)) ++
  ((ref.filter fun s => !cur.any fun r => r.label == s.label).map
    fun s => (s.label, none, some s.data))

/-- Lines 398-401: fill the missing sides of the outer join with the
default values. -/
def fillMerge (group : Bool)
    (m : List (String × Option SideData × Option SideData)) : List MRow :=
  m.map fun t =>
    { label := t.1
      cur := t.2.1.getD (defaultSide group)
      ref := t.2.2.getD (defaultSide group) }

/-- The reference merge of `producePlots` (lines 394-401): outer join on
`label` followed by default-value substitution. -/
def mergeTables (group : Bool) (cur ref : List Row) : List MRow :=
  fillMerge group (mergeOuter cur ref)

/-- Model of `df.sort_values(by=..., ascending=...)` (line 416), on a list
with an explicit sort-key accessor. -/
def sortByKey {α : Type} (key : α → ℚ) (asc : Bool) (l : List α) :
    List α :=
  l.mergeSort fun a b =>
    if asc then decide (key a ≤ key b) else decide (key b ≤ key a)

/-- Line 408: `df[f"{key}_diff"] = abs(df[key] - df[f"{key}_ref"])` —
append the `<col>_diff` sort-key column to every row. -/
def addDiffKey (col colRef : MRow → ℚ) (l : List MRow) :
    List (MRow × ℚ) :=
  l.map fun r => (r, |col r - colRef r|)

/-- Lines 405-408 and 416 for a `<col>_diff` sort mode: add the diff
column, then sort by it in the requested direction. -/
def sortDiff (col colRef : MRow → ℚ) (asc : Bool) (l : List MRow) :
    List (MRow × ℚ) :=
  sortByKey Prod.snd asc (addDiffKey col colRef l)

/-- Lines 409-414: the `<col>_both` sort-key column is the row-wise
maximum of the current and reference columns when sorting ascending, and
their row-wise minimum when sorting descending. -/
def addBothKey (col colRef : MRow → ℚ) (asc : Bool) (l : List MRow) :
    List (MRow × ℚ) :=
  l.map fun r =>
    (r, if asc then max (col r) (colRef r) else min (col r) (colRef r))

/-- Lines 409-416 for a `<col>_both` sort mode: add the both column, then
sort by it in the requested direction. -/
def sortBoth (col colRef : MRow → ℚ) (asc : Bool) (l : List MRow) :
    List (MRow × ℚ) :=
  sortByKey Prod.snd asc (addBothKey col colRef asc l)

/-- Python slicing `l[s:]` for an integer start `s` (negative starts count
from the end, clamped to the list). -/
def pySliceFrom {α : Type} (s : Int) (l : List α) : List α :=
  if s < 0 then l.drop ((l.length + s).toNat) else l.drop s.toNat

/-- Lines 471-479: `if args.num and args.num < df.size: df = df[-args.num:]`.
`args.num` is `None` when not supplied and is truthy when non-zero;
`df.size` is the number of cells, i.e. rows times columns (`ncols`). -/
def truncateRows {α : Type} (num : Option Int) (ncols : Nat)
    (df : List α) : List α :=
  match num with
  | none => df
  | some n =>
    if n ≠ 0 ∧ n < (df.length * ncols : Nat) then pySliceFrom (-n) df
    else df

/-- The derived-column invariant of one built row: `absimpact = |impact|`
and, when the pull columns are present, `abspull = |pull|`. -/
def rowInvariant (r : Row) : Prop :=
  r.absimpact = |r.impact| ∧ ∀ pc, r.pulls = some pc → pc.abspull = |pc.pull|

/-- The derived-column invariant of one side of a merged row. -/
def sideInvariant (d : SideData) : Prop :=
  d.absimpact = |d.impact| ∧ ∀ pc, d.pulls = some pc → pc.abspull = |pc.pull|

/-- Errors raised by the luminosity lookup in `producePlots`. -/
inductive XsecError where
  | notImplemented : List String → XsecError
  | keyError : String → XsecError
deriving DecidableEq

/-- Lines 370-377 of `producePlots` for the absolute cross-section POI
types (`pmaskedexp`, `sumxsec`): when the channel dictionary has exactly
one entry, look up `channel_info["chan_13TeV"]["lumi"]` (a `KeyError` if
the single channel has another name) and return the scale
`1/(lumi*1000)`; otherwise raise
`NotImplementedError(f"Found channels {...} but only one channel is
supported.")`. -/
def computeXsecScale (channel_info : List (String × ℚ)) :
    Except XsecError ℚ :=
  if channel_info.length = 1 then
    match channel_info.lookup "chan_13TeV" with
    | some lumi => .ok (1 / (lumi * 1000))
    | none => .error (.keyError "chan_13TeV")
  else .error (.notImplemented (channel_info.map Prod.fst))

/-! ## Helper lemmas -/

theorem setColor_label (group : Bool) (r : Row) :
    (setColor group r).label = r.label := by
  unfold setColor; split <;> rfl

theorem setColor_impact (group : Bool) (r : Row) :
    (setColor group r).impact = r.impact := by
  unfold setColor; split <;> rfl

theorem setColor_absimpact (group : Bool) (r : Row) :
    (setColor group r).absimpact = r.absimpact := by
  unfold setColor; split <;> rfl

theorem setColor_pulls (group : Bool) (r : Row) :
    (setColor group r).pulls = r.pulls := by
  unfold setColor; split <;> rfl

theorem mem_of_mem_dropPoi {cs : String → String → Bool}
    {poi : Option String} {group : Bool} {rows : List Row} {r : Row}
    (h : r ∈ dropPoi cs poi group rows) : r ∈ rows := by
  cases poi with
  | none => exact h
  | some p =>
    simp only [dropPoi] at h
    by_cases hgp : (group || p.isEmpty) = true
    · rwa [if_pos hgp] at h
    · rw [if_neg hgp] at h
      exact (List.mem_filter.mp h).1

theorem filteredPairs_subset_zip {ms : String → String → Bool}
    {group : Bool} {grouping : Option (List String)}
    {filters : List String} {impacts : List ℚ} {labels : List String}
    {il : ℚ × String}
    (h : il ∈ filteredPairs ms group grouping filters impacts labels) :
    il ∈ impacts.zip labels := by
  unfold filteredPairs at h
  split at h
  · exact (List.mem_filter.mp h).1
  · exact h

theorem mem_readFitInfoFromFile_decomp {ms cs : String → String → Bool}
    {tr : String → String} {impacts : List ℚ} {labels : List String}
    {poi : Option String} {group : Bool} {grouping : Option (List String)}
    {filters : List String} {scale : ℚ}
    {pullOf constraintOf prefitOf : String → ℚ} {r : Row}
    (h : r ∈ readFitInfoFromFile ms cs tr impacts labels poi group grouping
      filters scale pullOf constraintOf prefitOf) :
    ∃ il ∈ filteredPairs ms group grouping filters impacts labels,
      r = setColor group
        (buildRow tr group scale pullOf constraintOf prefitOf il) := by
  unfold readFitInfoFromFile at h
  obtain ⟨r0, hr0, hr⟩ := List.mem_map.mp h
  obtain ⟨il, hil, hb⟩ := List.mem_map.mp (mem_of_mem_dropPoi hr0)
  exact ⟨il, hil, by rw [← hr, ← hb]⟩

theorem rowInvariant_setColor_buildRow (tr : String → String)
    (group : Bool) (scale : ℚ) (pullOf constraintOf prefitOf : String → ℚ)
    (il : ℚ × String) :
    rowInvariant
      (setColor group (buildRow tr group scale pullOf constraintOf prefitOf il)) := by
  unfold rowInvariant
  rw [setColor_absimpact, setColor_impact, setColor_pulls]
  unfold buildRow
  refine ⟨rfl, ?_⟩
  intro pc hpc
  cases group with
  | true => simp at hpc
  | false =>
    simp only [if_neg] at hpc
    simp at hpc
    rw [← hpc]

theorem mergeOuter_sides {cur ref : List Row}
    {t : String × Option SideData × Option SideData}
    (ht : t ∈ mergeOuter cur ref) :
    (t.2.1 = none ∨ ∃ r ∈ cur, t.2.1 = some r.data) ∧
    (t.2.2 = none ∨ ∃ s ∈ ref, t.2.2 = some s.data) := by
  unfold mergeOuter at ht
  rcases List.mem_append.mp ht with h | h
  · obtain ⟨r, hr, hmem⟩ := List.mem_flatMap.mp h
    by_cases he : (ref.filter fun s => s.label == r.label).isEmpty
    · rw [if_pos he] at hmem
      simp only [List.mem_singleton] at hmem
      subst hmem
      exact ⟨Or.inr ⟨r, hr, rfl⟩, Or.inl rfl⟩
    · rw [if_neg he] at hmem
      obtain ⟨s, hs, hts⟩ := List.mem_map.mp hmem
      subst hts
      exact ⟨Or.inr ⟨r, hr, rfl⟩,
        Or.inr ⟨s, (List.mem_filter.mp hs).1, rfl⟩⟩
  · obtain ⟨s, hs, hts⟩ := List.mem_map.mp h
    subst hts
    exact ⟨Or.inl rfl, Or.inr ⟨s, (List.mem_filter.mp hs).1, rfl⟩⟩

theorem sideInvariant_defaultSide (group : Bool) :
    sideInvariant (defaultSide group) := by
  unfold sideInvariant defaultSide
  refine ⟨by simp, ?_⟩
  intro pc hpc
  cases group with
  | true => simp at hpc
  | false =>
    simp at hpc
    rw [← hpc]
    simp

theorem sideInvariant_data {r : Row} (h : rowInvariant r) :
    sideInvariant r.data := h

/-! ## Claims -/

/-- C1: in every table produced by the builder (grouped or ungrouped), the
derived `absimpact` column equals `|impact|` and, whenever pull columns
were derived (ungrouped mode), `abspull = |pull|`; and both properties are
preserved, on both sides, by the reference merge with its default-value
filling. -/
theorem absimpact_abspull_invariant :
    (∀ (ms cs : String → String → Bool) (tr : String → String)
        (impacts : List ℚ) (labels : List String) (poi : Option String)
        (group : Bool) (grouping : Option (List String))
        (filters : List String) (scale : ℚ)
        (pullOf constraintOf prefitOf : String → ℚ),
      ∀ r ∈ readFitInfoFromFile ms cs tr impacts labels poi group grouping
          filters scale pullOf constraintOf prefitOf, rowInvariant r) ∧
    (∀ (group : Bool) (cur ref : List Row),
      (∀ r ∈ cur, rowInvariant r) → (∀ s ∈ ref, rowInvariant s) →
      ∀ m ∈ mergeTables group cur ref,
        sideInvariant m.cur ∧ sideInvariant m.ref) := by
  constructor
  · intro ms cs tr impacts labels poi group grouping filters scale
      pullOf constraintOf prefitOf r hr
    obtain ⟨il, _, hrw⟩ := mem_readFitInfoFromFile_decomp hr
    rw [hrw]
    exact rowInvariant_setColor_buildRow ..
  · intro group cur ref hcur href m hm
    unfold mergeTables fillMerge at hm
    obtain ⟨t, ht, htm⟩ := List.mem_map.mp hm
    obtain ⟨h1, h2⟩ := mergeOuter_sides ht
    subst htm
    constructor
    · rcases h1 with h | ⟨r, hr, h⟩ <;> simp only [h]
      · exact sideInvariant_defaultSide group
      · exact sideInvariant_data (hcur r hr)
    · rcases h2 with h | ⟨s, hs, h⟩ <;> simp only [h]
      · exact sideInvariant_defaultSide group
      · exact sideInvariant_data (href s hs)

/-- Witness for C1: a concrete ungrouped table and a concrete merge where
the invariant is checked on an explicit row. -/
theorem absimpact_abspull_invariant_witness :
    (∃ r, r ∈ readFitInfoFromFile (fun _ _ => true) (fun _ _ => true) id
        [(-3 : ℚ)] ["x"] none false none [] 2
        (fun _ => 5) (fun _ => 1) (fun _ => 2) ∧ rowInvariant r) ∧
    (∃ m, m ∈ mergeTables false []
        [{ label := "z", impact := 1, absimpact := 1, pulls := none,
           impact_color := "#377eb8" }] ∧
      sideInvariant m.cur ∧ sideInvariant m.ref) := by
  have hout : (readFitInfoFromFile (fun _ _ => true) (fun _ _ => true) id
      [(-3 : ℚ)] ["x"] none false none [] 2
      (fun _ => 5) (fun _ => 1) (fun _ => 2)) =
      [setColor false (buildRow id false 2
        (fun _ => 5) (fun _ => 1) (fun _ => 2) (-3, "x"))] := by
    simp [readFitInfoFromFile, filteredPairs, dropPoi]
  have hmerge : (mergeTables false []
      [{ label := "z", impact := 1, absimpact := 1, pulls := none,
         impact_color := "#377eb8" }]) =
      [⟨"z", defaultSide false,
        Row.data { label := "z", impact := 1, absimpact := 1, pulls := none,
                   impact_color := "#377eb8" }⟩] := by
    simp [mergeTables, mergeOuter, fillMerge]
  constructor
  · refine ⟨setColor false (buildRow id false 2
      (fun _ => 5) (fun _ => 1) (fun _ => 2) (-3, "x")), ?_, ?_⟩
    · rw [hout]; exact List.mem_singleton.mpr rfl
    · exact absimpact_abspull_invariant.1 (fun _ _ => true) (fun _ _ => true)
        id [(-3 : ℚ)] ["x"] none false none [] 2
        (fun _ => 5) (fun _ => 1) (fun _ => 2) _
        (by rw [hout]; exact List.mem_singleton.mpr rfl)
  · refine ⟨⟨"z", defaultSide false,
      Row.data { label := "z", impact := 1, absimpact := 1, pulls := none,
                 impact_color := "#377eb8" }⟩, ?_, ?_⟩
    · rw [hmerge]; exact List.mem_singleton.mpr rfl
    · exact absimpact_abspull_invariant.2 false []
        [{ label := "z", impact := 1, absimpact := 1, pulls := none,
           impact_color := "#377eb8" }]
        (by simp)
        (by
          intro s hs
          simp only [List.mem_singleton] at hs
          subst hs
          exact ⟨by norm_num [rowInvariant], by simp⟩) _
        (by rw [hmerge]; exact List.mem_singleton.mpr rfl)

/-- C2: in ungrouped mode every built row carries pull columns with
`pull = raw_pull - prefit_pull` (for some input label), the stored
`newpull` is `pull / sqrt (1 - constraint^2)` (the value
`NewPull.val pull (1 - constraint^2)`) when the divisor is a positive
real, and is the sentinel 999 (`NewPull.sentinel`) whenever the division
is infinite or NaN, i.e. whenever `1 - constraint^2 ≤ 0` — in particular
whenever `constraint = 1`. -/
theorem newpull_sentinel_on_bad_division :
    ∀ (ms cs : String → String → Bool) (tr : String → String)
      (impacts : List ℚ) (labels : List String) (poi : Option String)
      (grouping : Option (List String)) (filters : List String) (scale : ℚ)
      (pullOf constraintOf prefitOf : String → ℚ),
    ∀ r ∈ readFitInfoFromFile ms cs tr impacts labels poi false grouping
        filters scale pullOf constraintOf prefitOf,
    ∃ pc, r.pulls = some pc ∧
      (∃ l ∈ labels, pc.pull = pullOf l - prefitOf l ∧
        pc.pull_prefit = prefitOf l ∧ pc.constraint = constraintOf l) ∧
      pc.newpull = mkNewpull pc.pull pc.constraint ∧
      (1 - pc.constraint ^ 2 > 0 →
        pc.newpull = NewPull.val pc.pull (1 - pc.constraint ^ 2)) ∧
      (1 - pc.constraint ^ 2 ≤ 0 → pc.newpull = NewPull.sentinel) ∧
      (pc.constraint = 1 → pc.newpull = NewPull.sentinel) := by
  intro ms cs tr impacts labels poi grouping filters scale
    pullOf constraintOf prefitOf r hr
  obtain ⟨il, hil, hrw⟩ := mem_readFitInfoFromFile_decomp hr
  refine ⟨{ pull := pullOf il.2 - prefitOf il.2
            constraint := constraintOf il.2
            pull_prefit := prefitOf il.2
            abspull := |pullOf il.2 - prefitOf il.2|
            newpull := mkNewpull (pullOf il.2 - prefitOf il.2)
              (constraintOf il.2) }, ?_, ?_, rfl, ?_, ?_, ?_⟩
  · rw [hrw, setColor_pulls]
    simp [buildRow]
  · exact ⟨il.2, (List.of_mem_zip (filteredPairs_subset_zip hil)).2,
      rfl, rfl, rfl⟩
  · intro h
    unfold mkNewpull
    rw [if_pos h]
  · intro h
    unfold mkNewpull
    rw [if_neg (not_lt.mpr h)]
  · intro h
    have hc : constraintOf il.2 = 1 := h
    show mkNewpull (pullOf il.2 - prefitOf il.2) (constraintOf il.2) =
      NewPull.sentinel
    rw [hc]
    unfold mkNewpull
    norm_num

/-- Witness for C2: a concrete ungrouped table whose single row has
`raw_pull = 4`, `prefit_pull = 3` and `constraint = 1`, so `pull = 1` and
the stored `newpull` is the sentinel. -/
theorem newpull_sentinel_on_bad_division_witness :
    ∃ r, r ∈ readFitInfoFromFile (fun _ _ => true) (fun _ _ => true) id
        [(1 : ℚ)] ["x"] none false none [] 1
        (fun _ => 4) (fun _ => 1) (fun _ => 3) ∧
      ∃ pc, r.pulls = some pc ∧ pc.pull = 1 ∧
        pc.newpull = NewPull.sentinel := by
  have hout : (readFitInfoFromFile (fun _ _ => true) (fun _ _ => true) id
      [(1 : ℚ)] ["x"] none false none [] 1
      (fun _ => 4) (fun _ => 1) (fun _ => 3)) =
      [setColor false (buildRow id false 1
        (fun _ => 4) (fun _ => 1) (fun _ => 3) (1, "x"))] := by
    simp [readFitInfoFromFile, filteredPairs, dropPoi]
  have hmem : setColor false (buildRow id false 1
      (fun _ => 4) (fun _ => 1) (fun _ => 3) (1, "x")) ∈
      readFitInfoFromFile (fun _ _ => true) (fun _ _ => true) id
        [(1 : ℚ)] ["x"] none false none [] 1
        (fun _ => 4) (fun _ => 1) (fun _ => 3) := by
    rw [hout]
    exact List.mem_singleton.mpr rfl
  obtain ⟨pc, hpc, ⟨l, _, hp, _, hc⟩, _, _, _, hone⟩ :=
    newpull_sentinel_on_bad_division (fun _ _ => true) (fun _ _ => true) id
      [(1 : ℚ)] ["x"] none none [] 1
      (fun _ => 4) (fun _ => 1) (fun _ => 3) _ hmem
  refine ⟨_, hmem, pc, hpc, ?_, hone (by rw [hc])⟩
  rw [hp]
  norm_num

theorem keepPair_iff (ms : String → String → Bool) (group : Bool)
    (grouping : Option (List String)) (filters : List String) (l : String)
    (hne : filters.isEmpty = false) :
    keepPair ms group grouping filters l = true ↔
      ((group = true → groupingTruthy grouping = true →
        inGrouping grouping l = true) ∧ ∃ f ∈ filters, ms f l = true) := by
  cases group <;> cases hgt : groupingTruthy grouping <;>
    cases hin : inGrouping grouping l <;>
    simp [keepPair, hne, List.any_eq_true, hgt, hin]

/-- C3: with a non-empty filter list, the filtering stage keeps exactly
the rows whose label matches at least one filter regex (and, when a
grouping is active — group mode with a truthy grouping — whose label is a
member of the grouping); with no filters and no grouping every row is
kept. -/
theorem filter_retention :
    ∀ (ms : String → String → Bool) (group : Bool)
      (grouping : Option (List String)) (filters : List String)
      (impacts : List ℚ) (labels : List String),
    (filters ≠ [] →
      ∀ il : ℚ × String,
        il ∈ filteredPairs ms group grouping filters impacts labels ↔
          il ∈ impacts.zip labels ∧ (∃ f ∈ filters, ms f il.2 = true) ∧
            (group = true → groupingTruthy grouping = true →
              inGrouping grouping il.2 = true)) ∧
    (filters = [] → grouping = none →
      filteredPairs ms group grouping filters impacts labels =
        impacts.zip labels) := by
  intro ms group grouping filters impacts labels
  constructor
  · intro hf il
    have hne : filters.isEmpty = false := by
      simp [List.isEmpty_iff, hf]
    rw [filteredPairs]
    rw [if_pos (by simp [hne])]
    rw [List.mem_filter]
    rw [keepPair_iff ms group grouping filters il.2 hne]
    constructor
    · rintro ⟨hz, hgr, hms⟩
      exact ⟨hz, hms, hgr⟩
    · rintro ⟨hz, hms, hgr⟩
      exact ⟨hz, hgr, hms⟩
  · intro h1 h2
    subst h1
    subst h2
    simp [filteredPairs, groupingTruthy]

/-- Witness for C3: with filter list `["b"]` and an equality-test match
oracle, the pair labelled `"b"` is kept; with no filters and no grouping
the zipped input is returned unchanged. -/
theorem filter_retention_witness :
    ((2 : ℚ), "b") ∈ filteredPairs (fun f l => f == l) false none ["b"]
      [1, 2] ["a", "b"] ∧
    filteredPairs (fun f l => f == l) false none [] [1, 2] ["a", "b"] =
      [(1 : ℚ), 2].zip ["a", "b"] := by
  constructor
  · exact ((filter_retention (fun f l => f == l) false none ["b"]
        [1, 2] ["a", "b"]).1 (by simp) ((2 : ℚ), "b")).mpr
      ⟨by norm_num [List.zip], ⟨"b", by simp, by simp⟩, by simp⟩
  · exact (filter_retention (fun f l => f == l) false none []
      [1, 2] ["a", "b"]).2 rfl rfl

theorem mem_mergeTables {group : Bool} {cur ref : List Row} {m : MRow} :
    m ∈ mergeTables group cur ref ↔
    ∃ t ∈ mergeOuter cur ref,
      m = ⟨t.1, t.2.1.getD (defaultSide group),
           t.2.2.getD (defaultSide group)⟩ := by
  simp [mergeTables, fillMerge, List.mem_map, eq_comm]

theorem mem_mergeOuter_cases {cur ref : List Row}
    {t : String × Option SideData × Option SideData}
    (ht : t ∈ mergeOuter cur ref) :
    (∃ r ∈ cur, t.1 = r.label ∧ t.2.1 = some r.data ∧
      ((t.2.2 = none ∧ ∀ s ∈ ref, s.label ≠ r.label) ∨
        ∃ s ∈ ref, s.label = r.label ∧ t.2.2 = some s.data)) ∨
    (∃ s ∈ ref, t = (s.label, none, some s.data) ∧
      ∀ r ∈ cur, r.label ≠ s.label) := by
  unfold mergeOuter at ht
  rcases List.mem_append.mp ht with h | h
  · obtain ⟨r, hr, hmem⟩ := List.mem_flatMap.mp h
    left
    by_cases he : (ref.filter fun s => s.label == r.label).isEmpty
    · rw [if_pos he] at hmem
      simp only [List.mem_singleton] at hmem
      subst hmem
      refine ⟨r, hr, rfl, rfl, Or.inl ⟨rfl, ?_⟩⟩
      intro s hs
      have := List.isEmpty_iff.mp he
      have hnot := List.filter_eq_nil_iff.mp this s hs
      simpa using hnot
    · rw [if_neg he] at hmem
      obtain ⟨s, hsf, hts⟩ := List.mem_map.mp hmem
      obtain ⟨hs, hsl⟩ := List.mem_filter.mp hsf
      subst hts
      exact ⟨r, hr, rfl, rfl, Or.inr ⟨s, hs, by simpa using hsl, rfl⟩⟩
  · obtain ⟨s, hsf, hts⟩ := List.mem_map.mp h
    obtain ⟨hs, hsany⟩ := List.mem_filter.mp hsf
    right
    refine ⟨s, hs, hts.symm, ?_⟩
    simpa using hsany

/-- C4: in the reference merge (outer join on `label` followed by
default-value filling), every label present in only one of the two
tables yields a merged row whose missing side is entirely replaced by
the defaults: numeric fields `0` and `impact_color` the neutral
`"#377eb8"`; no error is involved, the merge is total. -/
theorem merge_fills_missing_side_with_defaults :
    ∀ (group : Bool) (cur ref : List Row) (l : String),
    ((∀ r ∈ cur, r.label ≠ l) → (∃ s ∈ ref, s.label = l) →
      (∃ m ∈ mergeTables group cur ref, m.label = l) ∧
      ∀ m ∈ mergeTables group cur ref, m.label = l →
        m.cur = defaultSide group) ∧
    ((∀ s ∈ ref, s.label ≠ l) → (∃ r ∈ cur, r.label = l) →
      (∃ m ∈ mergeTables group cur ref, m.label = l) ∧
      ∀ m ∈ mergeTables group cur ref, m.label = l →
        m.ref = defaultSide group) ∧
    ((defaultSide group).impact = 0 ∧ (defaultSide group).absimpact = 0 ∧
      (defaultSide group).impact_color = "#377eb8" ∧
      ∀ pc, (defaultSide group).pulls = some pc →
        pc.pull = 0 ∧ pc.constraint = 0 ∧ pc.abspull = 0) := by
  intro group cur ref l
  refine ⟨?_, ?_, ?_⟩
  · rintro hcur ⟨s, hs, hsl⟩
    subst hsl
    constructor
    · refine ⟨⟨s.label, defaultSide group, s.data⟩, ?_, rfl⟩
      rw [mem_mergeTables]
      refine ⟨(s.label, none, some s.data), ?_, rfl⟩
      unfold mergeOuter
      refine List.mem_append_right _ ?_
      refine List.mem_map.mpr ⟨s, List.mem_filter.mpr ⟨hs, ?_⟩, rfl⟩
      simp only [Bool.not_eq_true', List.any_eq_false]
      intro r hr
      simpa using hcur r hr
    · intro m hm hml
      obtain ⟨t, ht, hmt⟩ := mem_mergeTables.mp hm
      rcases mem_mergeOuter_cases ht with ⟨r, hr, ht1, _⟩ | ⟨s2, _, hts, _⟩
      · exfalso
        apply hcur r hr
        rw [← ht1, ← hml, hmt]
      · rw [hmt, hts]
        rfl
  · rintro href ⟨r, hr, hrl⟩
    subst hrl
    constructor
    · refine ⟨⟨r.label, r.data, defaultSide group⟩, ?_, rfl⟩
      rw [mem_mergeTables]
      refine ⟨(r.label, some r.data, none), ?_, rfl⟩
      unfold mergeOuter
      refine List.mem_append_left _ ?_
      refine List.mem_flatMap.mpr ⟨r, hr, ?_⟩
      have hemp : (ref.filter fun s => s.label == r.label) = [] := by
        rw [List.filter_eq_nil_iff]
        intro s hs
        simpa using href s hs
      rw [hemp]
      simp
    · intro m hm hml
      obtain ⟨t, ht, hmt⟩ := mem_mergeTables.mp hm
      rcases mem_mergeOuter_cases ht with
        ⟨r2, _, ht1, _, hnone | ⟨s, hs, hsl, _⟩⟩ | ⟨s, hs, hts, _⟩
      · rw [hmt, hnone.1]
        rfl
      · exfalso
        apply href s hs
        rw [hsl, ← ht1, ← hml, hmt]
      · exfalso
        apply href s hs
        have : m.label = s.label := by rw [hmt, hts]
        rw [← this, hml]
  · cases group with
    | true =>
      refine ⟨rfl, rfl, rfl, ?_⟩
      intro pc hpc
      simp [defaultSide] at hpc
    | false =>
      refine ⟨rfl, rfl, rfl, ?_⟩
      intro pc hpc
      simp [defaultSide] at hpc
      rw [← hpc]
      exact ⟨rfl, rfl, rfl⟩

/-- Witness for C4: merging an empty current table with a one-row
reference table labelled `"q"` produces one merged row for `"q"` whose
current side is the default side. -/
theorem merge_fills_missing_side_with_defaults_witness :
    (∃ m ∈ mergeTables false []
        [{ label := "q", impact := 7, absimpact := 7, pulls := none,
           impact_color := "#e41a1c" }], m.label = "q") ∧
    (∀ m ∈ mergeTables false []
        [{ label := "q", impact := 7, absimpact := 7, pulls := none,
           impact_color := "#e41a1c" }], m.label = "q" →
      m.cur = defaultSide false) := by
  have h := (merge_fills_missing_side_with_defaults false []
    [{ label := "q", impact := 7, absimpact := 7, pulls := none,
       impact_color := "#e41a1c" }] "q").1
    (by simp)
    ⟨{ label := "q", impact := 7, absimpact := 7, pulls := none,
       impact_color := "#e41a1c" }, List.mem_singleton.mpr rfl, rfl⟩
  exact h

/-- C5 counterexample: supplying the row limit `N = 0` to a one-row table
(so `N` is less than the number of rows) leaves the table unchanged
instead of keeping the last `0` rows, because `if args.num:` is false for
`0`; the claim as stated predicts an empty result here. -/
theorem row_limit_zero_counterexample :
    (0 : Int) < (([(3 : ℚ)]).length : Int) ∧
    truncateRows (some 0) 7 [(3 : ℚ)] = [(3 : ℚ)] ∧
    truncateRows (some 0) 7 [(3 : ℚ)] ≠ [] := by
  refine ⟨by norm_num, ?_, ?_⟩
  · simp [truncateRows]
  · simp [truncateRows]

/-- C5 amended: when a positive row limit `N ≥ 1` is supplied and `N` is
less than the number of rows, the final table is exactly the last `N`
rows of the sorted table; when `N` is at least the number of rows the
table is unchanged.  (`ncols ≥ 1` reflects that the dataframe always has
at least one column, so `df.size = rows * ncols ≥ rows`.) -/
theorem row_limit_truncation {α : Type} (n : Int) (ncols : Nat)
    (df : List α) (hn : 1 ≤ n) (hc : 1 ≤ ncols) :
    (n < (df.length : Int) →
      truncateRows (some n) ncols df = df.drop (df.length - n.toNat) ∧
      (truncateRows (some n) ncols df).length = n.toNat) ∧
    ((df.length : Int) ≤ n → truncateRows (some n) ncols df = df) := by
  have hmul : df.length ≤ df.length * ncols := by
    calc df.length = df.length * 1 := (Nat.mul_one _).symm
    _ ≤ df.length * ncols := Nat.mul_le_mul_left _ hc
  constructor
  · intro hlt
    have h0 : n ≠ 0 := by omega
    have hcond : n < ((df.length * ncols : Nat) : Int) := by
      have h1 : (df.length : Int) ≤ ((df.length * ncols : Nat) : Int) := by
        exact_mod_cast hmul
      omega
    have heq : ((df.length : Int) + -n).toNat = df.length - n.toNat := by
      omega
    simp only [truncateRows]
    rw [if_pos ⟨h0, hcond⟩]
    rw [pySliceFrom, if_pos (by omega : (-n : Int) < 0)]
    rw [heq]
    refine ⟨rfl, ?_⟩
    rw [List.length_drop]
    omega
  · intro hge
    by_cases hcond : n ≠ 0 ∧ n < ((df.length * ncols : Nat) : Int)
    · simp only [truncateRows]
      rw [if_pos hcond]
      rw [pySliceFrom, if_pos (by omega : (-n : Int) < 0)]
      have heq : ((df.length : Int) + -n).toNat = 0 := by omega
      rw [heq, List.drop_zero]
    · simp only [truncateRows]
      rw [if_neg hcond]

/-- Witness for C5 amended: on a two-row table, limit `1` keeps exactly
the last row and limit `5` leaves the table unchanged. -/
theorem row_limit_truncation_witness :
    truncateRows (some 1) 7 [(3 : ℚ), 4] = [(4 : ℚ)] ∧
    truncateRows (some 5) 7 [(3 : ℚ), 4] = [(3 : ℚ), 4] := by
  have h1 := (row_limit_truncation 1 7 [(3 : ℚ), 4] (by norm_num)
    (by norm_num)).1 (by norm_num)
  have h2 := (row_limit_truncation 5 7 [(3 : ℚ), 4] (by norm_num)
    (by norm_num)).2 (by norm_num)
  refine ⟨?_, h2⟩
  rw [h1.1]
  rfl

theorem sortByKey_perm {α : Type} (key : α → ℚ) (asc : Bool)
    (l : List α) : (sortByKey key asc l).Perm l :=
  List.mergeSort_perm l _

theorem sortByKey_pairwise {α : Type} (key : α → ℚ) (asc : Bool)
    (l : List α) :
    (sortByKey key asc l).Pairwise
      (fun a b => if asc then key a ≤ key b else key b ≤ key a) := by
  have h : (sortByKey key asc l).Pairwise (fun a b =>
      (if asc then decide (key a ≤ key b)
       else decide (key b ≤ key a)) = true) := by
    apply List.sorted_mergeSort
    · intro a b c hab hbc
      cases asc <;> simp at hab hbc ⊢
      · exact le_trans hbc hab
      · exact le_trans hab hbc
    · intro a b
      cases asc <;> simp
      · exact le_total _ _
      · exact le_total _ _
  refine h.imp ?_
  intro a b hab
  cases asc <;> simp at hab ⊢ <;> exact hab

/-- C6: for a `<col>_diff` sort mode, the added sort-key column equals
`|col - col_ref|` in every row (hence is non-negative), and the table is
then sorted by that column in the requested direction (the result is a
permutation of the keyed table that is pairwise ordered by the key). -/
theorem sort_diff_column :
    ∀ (col colRef : MRow → ℚ) (asc : Bool) (l : List MRow),
    (∀ p ∈ sortDiff col colRef asc l,
      p.2 = |col p.1 - colRef p.1| ∧ 0 ≤ p.2) ∧
    (sortDiff col colRef asc l).Perm (addDiffKey col colRef l) ∧
    (sortDiff col colRef asc l).Pairwise
      (fun a b => if asc then a.2 ≤ b.2 else b.2 ≤ a.2) := by
  intro col colRef asc l
  refine ⟨?_, ?_, ?_⟩
  · intro p hp
    have hmem : p ∈ addDiffKey col colRef l := by
      simpa [sortDiff, sortByKey] using hp
    obtain ⟨r, _, hpr⟩ := List.mem_map.mp hmem
    rw [← hpr]
    exact ⟨rfl, abs_nonneg _⟩
  · exact sortByKey_perm _ _ _
  · exact sortByKey_pairwise Prod.snd asc (addDiffKey col colRef l)

/-- Witness for C6: sorting two concrete merged rows ascending by
`impact_diff`. -/
theorem sort_diff_column_witness :
    (sortDiff (fun m => m.cur.impact) (fun m => m.ref.impact) true
        [⟨"a", ⟨1, 1, none, "c"⟩, ⟨5, 5, none, "c"⟩⟩,
         ⟨"b", ⟨2, 2, none, "c"⟩, ⟨2, 2, none, "c"⟩⟩]).Perm
      (addDiffKey (fun m => m.cur.impact) (fun m => m.ref.impact)
        [⟨"a", ⟨1, 1, none, "c"⟩, ⟨5, 5, none, "c"⟩⟩,
         ⟨"b", ⟨2, 2, none, "c"⟩, ⟨2, 2, none, "c"⟩⟩]) ∧
    (sortDiff (fun m => m.cur.impact) (fun m => m.ref.impact) true
        [⟨"a", ⟨1, 1, none, "c"⟩, ⟨5, 5, none, "c"⟩⟩,
         ⟨"b", ⟨2, 2, none, "c"⟩, ⟨2, 2, none, "c"⟩⟩]).Pairwise
      (fun a b => if true then a.2 ≤ b.2 else b.2 ≤ a.2) ∧
    ∃ p, p ∈ sortDiff (fun m => m.cur.impact) (fun m => m.ref.impact) true
        [⟨"a", ⟨1, 1, none, "c"⟩, ⟨5, 5, none, "c"⟩⟩,
         ⟨"b", ⟨2, 2, none, "c"⟩, ⟨2, 2, none, "c"⟩⟩] ∧
      p.2 = |(fun m => m.cur.impact) p.1 - (fun m => m.ref.impact) p.1| ∧
      0 ≤ p.2 := by
  have h := sort_diff_column (fun m => m.cur.impact)
    (fun m => m.ref.impact) true
    [⟨"a", ⟨1, 1, none, "c"⟩, ⟨5, 5, none, "c"⟩⟩,
     ⟨"b", ⟨2, 2, none, "c"⟩, ⟨2, 2, none, "c"⟩⟩]
  refine ⟨h.2.1, h.2.2, ?_⟩
  refine ⟨(⟨"a", ⟨1, 1, none, "c"⟩, ⟨5, 5, none, "c"⟩⟩, 4), ?_, ?_⟩
  · show _ ∈ sortByKey Prod.snd true _
    rw [sortByKey, List.mem_mergeSort]
    norm_num [addDiffKey]
  · exact h.1 _ (by
      show _ ∈ sortByKey Prod.snd true _
      rw [sortByKey, List.mem_mergeSort]
      norm_num [addDiffKey])

/-- C7: for a `<col>_both` sort mode, the added sort-key column equals
the row-wise maximum of the current and reference columns when sorting
ascending and their row-wise minimum when sorting descending, and the
table is then sorted by that column in the requested direction. -/
theorem sort_both_column :
    ∀ (col colRef : MRow → ℚ) (asc : Bool) (l : List MRow),
    (∀ p ∈ sortBoth col colRef asc l,
      p.2 = if asc then max (col p.1) (colRef p.1)
            else min (col p.1) (colRef p.1)) ∧
    (sortBoth col colRef asc l).Perm (addBothKey col colRef asc l) ∧
    (sortBoth col colRef asc l).Pairwise
      (fun a b => if asc then a.2 ≤ b.2 else b.2 ≤ a.2) := by
  intro col colRef asc l
  refine ⟨?_, ?_, ?_⟩
  · intro p hp
    have hmem : p ∈ addBothKey col colRef asc l := by
      simpa [sortBoth, sortByKey] using hp
    obtain ⟨r, _, hpr⟩ := List.mem_map.mp hmem
    rw [← hpr]
  · exact sortByKey_perm _ _ _
  · exact sortByKey_pairwise Prod.snd asc (addBothKey col colRef asc l)

/-- Witness for C7: sorting two concrete merged rows descending by
`impact_both` (the key is the row-wise minimum). -/
theorem sort_both_column_witness :
    (sortBoth (fun m => m.cur.impact) (fun m => m.ref.impact) false
        [⟨"a", ⟨1, 1, none, "c"⟩, ⟨5, 5, none, "c"⟩⟩,
         ⟨"b", ⟨2, 2, none, "c"⟩, ⟨2, 2, none, "c"⟩⟩]).Perm
      (addBothKey (fun m => m.cur.impact) (fun m => m.ref.impact) false
        [⟨"a", ⟨1, 1, none, "c"⟩, ⟨5, 5, none, "c"⟩⟩,
         ⟨"b", ⟨2, 2, none, "c"⟩, ⟨2, 2, none, "c"⟩⟩]) ∧
    (sortBoth (fun m => m.cur.impact) (fun m => m.ref.impact) false
        [⟨"a", ⟨1, 1, none, "c"⟩, ⟨5, 5, none, "c"⟩⟩,
         ⟨"b", ⟨2, 2, none, "c"⟩, ⟨2, 2, none, "c"⟩⟩]).Pairwise
      (fun a b => if false then a.2 ≤ b.2 else b.2 ≤ a.2) ∧
    ∃ p, p ∈ sortBoth (fun m => m.cur.impact) (fun m => m.ref.impact)
        false
        [⟨"a", ⟨1, 1, none, "c"⟩, ⟨5, 5, none, "c"⟩⟩,
         ⟨"b", ⟨2, 2, none, "c"⟩, ⟨2, 2, none, "c"⟩⟩] ∧
      p.2 = min ((fun m => m.cur.impact) p.1)
        ((fun m => m.ref.impact) p.1) := by
  have h := sort_both_column (fun m => m.cur.impact)
    (fun m => m.ref.impact) false
    [⟨"a", ⟨1, 1, none, "c"⟩, ⟨5, 5, none, "c"⟩⟩,
     ⟨"b", ⟨2, 2, none, "c"⟩, ⟨2, 2, none, "c"⟩⟩]
  refine ⟨h.2.1, h.2.2, ?_⟩
  refine ⟨(⟨"a", ⟨1, 1, none, "c"⟩, ⟨5, 5, none, "c"⟩⟩, 1), ?_, ?_⟩
  · show _ ∈ sortByKey Prod.snd false _
    rw [sortByKey, List.mem_mergeSort]
    norm_num [addBothKey]
  · have := h.1 (⟨"a", ⟨1, 1, none, "c"⟩, ⟨5, 5, none, "c"⟩⟩, 1) (by
      show _ ∈ sortByKey Prod.snd false _
      rw [sortByKey, List.mem_mergeSort]
      norm_num [addBothKey])
    simp only [Bool.false_eq_true, if_false] at this
    exact this

/-- C8: the `impact` column of every built table is the raw impact array
scaled element-wise by `scale`: every row of every built table has
`impact = raw * scale` and `absimpact = |raw * scale|` for its raw
filtered impact, and with no POI drop the `impact` and `absimpact`
columns are exactly the element-wise maps `raw * scale` and
`|raw * scale|` over the (filtered) raw array; in particular, for raw
impacts `[1, -2, 1/2]` with labels `["a","b","c"]` and scale `2` the
`impact` column is `[2, -4, 1]` and the `absimpact` column is
`[2, 4, 1]`. -/
theorem impact_column_scaling :
    (∀ (ms cs : String → String → Bool) (tr : String → String)
        (impacts : List ℚ) (labels : List String) (poi : Option String)
        (group : Bool) (grouping : Option (List String))
        (filters : List String) (scale : ℚ)
        (pullOf constraintOf prefitOf : String → ℚ),
      ∀ r ∈ readFitInfoFromFile ms cs tr impacts labels poi group grouping
          filters scale pullOf constraintOf prefitOf,
        ∃ il ∈ filteredPairs ms group grouping filters impacts labels,
          r.impact = il.1 * scale ∧ r.absimpact = |il.1 * scale|) ∧
    (∀ (ms cs : String → String → Bool) (tr : String → String)
        (impacts : List ℚ) (labels : List String) (group : Bool)
        (grouping : Option (List String)) (filters : List String)
        (scale : ℚ) (pullOf constraintOf prefitOf : String → ℚ),
      (readFitInfoFromFile ms cs tr impacts labels none group grouping
          filters scale pullOf constraintOf prefitOf).map
        (fun r => r.impact) =
        (filteredPairs ms group grouping filters impacts labels).map
          (fun il => il.1 * scale) ∧
      (readFitInfoFromFile ms cs tr impacts labels none group grouping
          filters scale pullOf constraintOf prefitOf).map
        (fun r => r.absimpact) =
        (filteredPairs ms group grouping filters impacts labels).map
          (fun il => |il.1 * scale|)) ∧
    ((readFitInfoFromFile (fun _ _ => true) (fun _ _ => true) id
        [(1 : ℚ), -2, 1/2] ["a", "b", "c"] none false none [] 2
        (fun _ => 0) (fun _ => 0) (fun _ => 0)).map (fun r => r.impact)) =
      [2, -4, 1] ∧
    ((readFitInfoFromFile (fun _ _ => true) (fun _ _ => true) id
        [(1 : ℚ), -2, 1/2] ["a", "b", "c"] none false none [] 2
        (fun _ => 0) (fun _ => 0) (fun _ => 0)).map
      (fun r => r.absimpact)) = [2, 4, 1] := by
  refine ⟨?_, ?_, ?_, ?_⟩
  · intro ms cs tr impacts labels poi group grouping filters scale
      pullOf constraintOf prefitOf r hr
    obtain ⟨il, hil, hrw⟩ := mem_readFitInfoFromFile_decomp hr
    refine ⟨il, hil, ?_, ?_⟩
    · rw [hrw, setColor_impact]
      rfl
    · rw [hrw, setColor_absimpact]
      rfl
  · intro ms cs tr impacts labels group grouping filters scale
      pullOf constraintOf prefitOf
    constructor
    · show (List.map (setColor group) (dropPoi cs none group _)).map _ = _
      rw [show ∀ rows, dropPoi cs none group rows = rows from
        fun _ => rfl]
      rw [List.map_map, List.map_map]
      apply List.map_congr_left
      intro il _
      show (setColor group
        (buildRow tr group scale pullOf constraintOf prefitOf il)).impact =
        il.1 * scale
      rw [setColor_impact]
      rfl
    · show (List.map (setColor group) (dropPoi cs none group _)).map _ = _
      rw [show ∀ rows, dropPoi cs none group rows = rows from
        fun _ => rfl]
      rw [List.map_map, List.map_map]
      apply List.map_congr_left
      intro il _
      show (setColor group
        (buildRow tr group scale pullOf constraintOf prefitOf
          il)).absimpact = |il.1 * scale|
      rw [setColor_absimpact]
      rfl
  · norm_num [readFitInfoFromFile, filteredPairs, buildRow, dropPoi,
      setColor, keepPair, mkNewpull, abs]
  · norm_num [readFitInfoFromFile, filteredPairs, buildRow, dropPoi,
      setColor, keepPair, mkNewpull, abs]

/-- Witness for C8: the universal clauses applied at the concrete
three-row input with scale 2. -/
theorem impact_column_scaling_witness :
    (∃ r, r ∈ readFitInfoFromFile (fun _ _ => true) (fun _ _ => true) id
        [(1 : ℚ), -2, 1/2] ["a", "b", "c"] none false none [] 2
        (fun _ => 0) (fun _ => 0) (fun _ => 0) ∧
      ∃ il ∈ filteredPairs (fun _ _ => true) false none []
          [(1 : ℚ), -2, 1/2] ["a", "b", "c"],
        r.impact = il.1 * 2 ∧ r.absimpact = |il.1 * 2|) ∧
    (readFitInfoFromFile (fun _ _ => true) (fun _ _ => true) id
        [(1 : ℚ), -2, 1/2] ["a", "b", "c"] none false none [] 2
        (fun _ => 0) (fun _ => 0) (fun _ => 0)).map (fun r => r.impact) =
      (filteredPairs (fun _ _ => true) false none []
        [(1 : ℚ), -2, 1/2] ["a", "b", "c"]).map
        (fun il => il.1 * 2) := by
  constructor
  · have hmem : setColor false (buildRow id false 2
        (fun _ => 0) (fun _ => 0) (fun _ => 0) (1, "a")) ∈
        readFitInfoFromFile (fun _ _ => true) (fun _ _ => true) id
          [(1 : ℚ), -2, 1/2] ["a", "b", "c"] none false none [] 2
          (fun _ => 0) (fun _ => 0) (fun _ => 0) := by
      simp [readFitInfoFromFile, filteredPairs, dropPoi]
    exact ⟨_, hmem, impact_column_scaling.1 (fun _ _ => true)
      (fun _ _ => true) id [(1 : ℚ), -2, 1/2] ["a", "b", "c"] none false
      none [] 2 (fun _ => 0) (fun _ => 0) (fun _ => 0) _ hmem⟩
  · exact (impact_column_scaling.2.1 (fun _ _ => true) (fun _ _ => true)
      id [(1 : ℚ), -2, 1/2] ["a", "b", "c"] false none [] 2
      (fun _ => 0) (fun _ => 0) (fun _ => 0)).1

/-- C9 counterexample: a result file exposing exactly one channel whose
name is not `chan_13TeV` makes the scale computation fail with a lookup
error instead of using that channel's luminosity, because the code reads
`channel_info["chan_13TeV"]` rather than the single channel present. -/
theorem single_channel_lookup_error_counterexample :
    computeXsecScale [("chan_A", (5 : ℚ))] =
      Except.error (XsecError.keyError "chan_13TeV") ∧
    [("chan_A", (5 : ℚ))].length = 1 := by
  exact ⟨rfl, rfl⟩

/-- C9 amended: for the absolute cross-section POI types, more than one
channel raises the fatal `NotImplementedError` listing the channels; a
single channel is usable only when it is named `chan_13TeV`, in which
case no error is raised and its luminosity gives the scale
`1/(lumi*1000)`. -/
theorem channel_scale_check :
    ∀ channel_info : List (String × ℚ),
    (1 < channel_info.length →
      computeXsecScale channel_info =
        Except.error (XsecError.notImplemented (channel_info.map Prod.fst))) ∧
    (∀ lumi : ℚ, channel_info = [("chan_13TeV", lumi)] →
      computeXsecScale channel_info = Except.ok (1 / (lumi * 1000))) := by
  intro channel_info
  constructor
  · intro h
    unfold computeXsecScale
    rw [if_neg (by omega)]
  · intro lumi h
    subst h
    rfl

/-- Witness for C9 amended: one `chan_13TeV` channel with luminosity 5
yields the scale `1/5000`; two channels yield the fatal error. -/
theorem channel_scale_check_witness :
    computeXsecScale [("chan_13TeV", (5 : ℚ))] =
      Except.ok (1 / (5 * 1000) : ℚ) ∧
    computeXsecScale [("a", (1 : ℚ)), ("b", 2)] =
      Except.error (XsecError.notImplemented ["a", "b"]) :=
  ⟨(channel_scale_check _).2 5 rfl,
   (channel_scale_check _).1 (by norm_num)⟩

/-- C10: in ungrouped mode, when a non-empty POI name is supplied, every
row whose translated label regex-contains the POI name with the
substring `_noi` removed is dropped, so no row of the built table
matches that pattern. -/
theorem poi_rows_dropped :
    ∀ (ms cs : String → String → Bool) (tr : String → String)
      (impacts : List ℚ) (labels : List String)
      (grouping : Option (List String)) (filters : List String)
      (scale : ℚ) (pullOf constraintOf prefitOf : String → ℚ)
      (p : String), p ≠ "" →
    ∀ r ∈ readFitInfoFromFile ms cs tr impacts labels (some p) false
        grouping filters scale pullOf constraintOf prefitOf,
      cs (stripNoi p) r.label = false := by
  intro ms cs tr impacts labels grouping filters scale
    pullOf constraintOf prefitOf p hp r hr
  unfold readFitInfoFromFile at hr
  obtain ⟨r0, hr0, hrr⟩ := List.mem_map.mp hr
  simp only [dropPoi] at hr0
  have hpe : p.isEmpty = false := by
    cases hq : p.isEmpty
    · rfl
    · exact absurd ((String.isEmpty_iff p).mp hq) hp
  rw [if_neg (by simp [hpe])] at hr0
  obtain ⟨_, hkeep⟩ := List.mem_filter.mp hr0
  rw [← hrr, setColor_label]
  simpa using hkeep

/-- Witness for C10: a concrete ungrouped table built with POI name
`"y_noi"`; its single row satisfies the no-match conclusion. -/
theorem poi_rows_dropped_witness :
    ∃ r, r ∈ readFitInfoFromFile (fun _ _ => true) (fun _ _ => false)
        id [(1 : ℚ)] ["x"] (some "y_noi") false none [] 1
        (fun _ => 0) (fun _ => 0) (fun _ => 0) ∧
      (fun _ _ => false : String → String → Bool)
        (stripNoi "y_noi") r.label = false := by
  have hout : (readFitInfoFromFile (fun _ _ => true) (fun _ _ => false)
      id [(1 : ℚ)] ["x"] (some "y_noi") false none [] 1
      (fun _ => 0) (fun _ => 0) (fun _ => 0)) =
      [setColor false (buildRow id false 1
        (fun _ => 0) (fun _ => 0) (fun _ => 0) (1, "x"))] := by
    have hie : ("y_noi".isEmpty) = false := rfl
    simp [readFitInfoFromFile, filteredPairs, dropPoi, hie]
  refine ⟨setColor false (buildRow id false 1
      (fun _ => 0) (fun _ => 0) (fun _ => 0) (1, "x")), ?_, ?_⟩
  · rw [hout]
    exact List.mem_singleton.mpr rfl
  · exact poi_rows_dropped (fun _ _ => true) (fun _ _ => false) id
      [(1 : ℚ)] ["x"] none [] 1
      (fun _ => 0) (fun _ => 0) (fun _ => 0) "y_noi" (by decide) _
      (by rw [hout]; exact List.mem_singleton.mpr rfl)

end PullsAndImpacts
